import Mathlib

/-!
Verification of the TodoApp backend (FastAPI + SQLAlchemy) against its
natural-language specification.

The development shallowly embeds the relevant Python modules:

* `src/backend/app/models.py` — the `Todo` row (structure `Todo` below);
  timestamps are modelled as natural numbers (seconds), the database store
  as a `List Todo` in insertion order.
* `src/backend/app/schemas.py` — `TodoCreate` / `TodoUpdate` (Pydantic
  models with `Optional` fields become structures with `Option` fields;
  Pydantic does not distinguish an explicitly-`null` field from an omitted
  one, both parse to `None`, hence both are `none` here).
* `src/backend/app/crud.py` — `get_todos`, `get_todo_by_id`, `create_todo`,
  `update_todo`, `delete_todo`, written as pure functions from the store to
  the new store plus the returned value.
* `src/backend/app/auth.py` — `create_access_token`, `verify_token`,
  `login`, `require_auth`.  The JWT wire format is abstracted: a token
  value records the key it was signed with, whether its payload is
  parsable JSON, and its `sub`/`exp` claims; `jwt.decode` is modelled by
  `jwtDecode`, following PyJWT's order of checks (signature first, then
  payload parse, then the `exp` claim).
-/

/-- A row of the `todos` table (`models.py`, class `Todo`):
`id` integer primary key, `title` non-nullable string column,
`description` nullable text column, `is_completed` boolean,
`created_at` server-generated timestamp (modelled in seconds). -/
structure Todo where
  id : Nat
  title : String
  description : Option String
  is_completed : Bool
  created_at : Nat
  deriving Repr, DecidableEq

/-- `schemas.TodoCreate` (inherits `TodoBase`): required `title : str`,
optional `description`.  Pydantic places no constraint on `title` beyond
it being a string. -/
structure TodoCreate where
  title : String
  description : Option String
  deriving Repr, DecidableEq

/-- `schemas.TodoUpdate`: all three fields optional, defaulting to `None`;
an explicit JSON `null` also parses to `None`. -/
structure TodoUpdate where
  title : Option String := none
  description : Option String := none
  is_completed : Option Bool := none
  deriving Repr, DecidableEq

/-- The database: the rows of the `todos` table, in insertion order. -/
abbrev Store := List Todo

/-- `crud.get_todos`: all rows ordered by `created_at` descending
(newest first). -/
def get_todos (db : Store) : List Todo :=
  db.mergeSort (fun a b => b.created_at ≤ a.created_at)

/-- `crud.get_todo_by_id`: `.filter(Todo.id == todo_id).first()` — the
first row whose `id` matches, or `None`. -/
def get_todo_by_id (db : Store) (todo_id : Nat) : Option Todo :=
  db.find? (fun t => t.id == todo_id)

/-- `crud.create_todo`: inserts a new row built from the request; the
storage layer assigns `id` (`new_id`) and `created_at` (`now`), and the
`is_completed` column defaults to `False`. -/
def create_todo (db : Store) (todo : TodoCreate) (new_id : Nat) (now : Nat) :
    Todo × Store :=
  let db_todo : Todo :=
    { id := new_id
      title := todo.title
      description := todo.description
      is_completed := false
      created_at := now }
  (db_todo, db ++ [db_todo])

/-- The field assignments inside `crud.update_todo`: each request field
that is not `None` overwrites the stored column; `None` fields leave the
column untouched. -/
def applyUpdate (todo : TodoUpdate) (db_todo : Todo) : Todo :=
  let t1 := match todo.title with
    | some s => { db_todo with title := s }
    | none => db_todo
  let t2 := match todo.description with
    | some d => { t1 with description := some d }
    | none => t1
  match todo.is_completed with
  | some b => { t2 with is_completed := b }
  | none => t2

/-- Replace the first row whose `id` matches by `t'` (the ORM mutates the
row object returned by `get_todo_by_id` in place and commits). -/
def setTodo (db : Store) (todo_id : Nat) (t' : Todo) : Store :=
  match db with
  | [] => []
  | x :: xs => if x.id == todo_id then t' :: xs else x :: setTodo xs todo_id t'

/-- `crud.update_todo`: load the row by id; if absent return `None` and
leave the table untouched; otherwise overwrite exactly the non-`None`
request fields, commit, and return the updated row. -/
def update_todo (db : Store) (todo_id : Nat) (todo : TodoUpdate) :
    Option Todo × Store :=
  match get_todo_by_id db todo_id with
  | none => (none, db)
  | some db_todo =>
    let t' := applyUpdate todo db_todo
    (some t', setTodo db todo_id t')

/-- Remove the first row whose `id` matches (the ORM deletes the row
object returned by `get_todo_by_id`). -/
def removeTodo (db : Store) (todo_id : Nat) : Store :=
  match db with
  | [] => []
  | x :: xs => if x.id == todo_id then xs else x :: removeTodo xs todo_id

/-- `crud.delete_todo`: load the row by id; if absent return `None` and
leave the table untouched; otherwise delete it, commit, and return the
pre-deletion snapshot. -/
def delete_todo (db : Store) (todo_id : Nat) : Option Todo × Store :=
  match get_todo_by_id db todo_id with
  | none => (none, db)
  | some db_todo => (some db_todo, removeTodo db todo_id)

/-- The primary-key invariant the storage backend maintains: row ids are
pairwise distinct. -/
def idsUnique (db : Store) : Prop := (db.map Todo.id).Nodup

/-! ## Token service (`auth.py`) -/

/-- `auth.SECRET_KEY`. -/
def SECRET_KEY : String := "change_this_secret"

/-- `auth.ACCESS_TOKEN_EXPIRE_MINUTES`. -/
def ACCESS_TOKEN_EXPIRE_MINUTES : Nat := 60

/-- Abstract JWT value: `key` is the key the token was signed with
(signature validity = `key = SECRET_KEY`), `parsable` whether the payload
decodes as JSON, and `sub`/`exp` its claims (`exp` in seconds). -/
structure Token where
  key : String
  parsable : Bool
  sub : Option String
  exp : Nat
  deriving Repr, DecidableEq

/-- The error taxonomy of `auth.py`: every branch raises HTTP 401; the
constructors distinguish the detail messages
(`"Invalid credentials"`, `"Missing or invalid Authorization header"`,
`"Invalid token"`, `"Token expired"`). -/
inductive AuthError where
  | invalidCredentials
  | missingAuth
  | malformedToken
  | expiredToken
  deriving Repr, DecidableEq

/-- `jwt.decode(token, SECRET_KEY, algorithms=[ALGORITHM])` as used in
`verify_token`, following PyJWT's order of checks: the signature is
verified first, then the payload is parsed, then the registered `exp`
claim is validated (expired iff `exp ≤ now`, zero leeway).  A failed
signature or unparsable payload raises a decode error (caught by
`except Exception` → `"Invalid token"`); a past `exp` raises
`ExpiredSignatureError` (→ `"Token expired"`). -/
def jwtDecode (now : Nat) (t : Token) : Except AuthError (Option String × Nat) :=
  if t.key ≠ SECRET_KEY then .error .malformedToken
  else if t.parsable = false then .error .malformedToken
  else if t.exp ≤ now then .error .expiredToken
  else .ok (t.sub, t.exp)

/-- `auth.create_access_token`: payload `{"sub": subject, "exp": expire}`
signed with `SECRET_KEY`; `expire` is now plus `expires_delta` when that
is a truthy timedelta (Python: `if expires_delta:` — `None` and a zero
delta are falsy), else now plus 60 minutes. -/
def create_access_token (subject : String) (expires_delta : Option Nat)
    (now : Nat) : Token :=
  let expire :=
    match expires_delta with
    | some d => if d ≠ 0 then now + d else now + ACCESS_TOKEN_EXPIRE_MINUTES * 60
    | none => now + ACCESS_TOKEN_EXPIRE_MINUTES * 60
  { key := SECRET_KEY, parsable := true, sub := some subject, exp := expire }

/-- `auth.verify_token`: decode, then fail with `"Invalid token"` when the
`sub` claim is missing, else return the subject. -/
def verify_token (now : Nat) (token : Token) : Except AuthError String :=
  match jwtDecode now token with
  | .error e => .error e
  | .ok (username, _) =>
    match username with
    | none => .error .malformedToken
    | some u => .ok u

/-- `auth.login`: `if data.username and data.password and
data.username == data.password` — both strings truthy (non-empty) and
equal; on success a token for the username, else `"Invalid credentials"`. -/
def login (username password : String) (now : Nat) : Except AuthError Token :=
  if username ≠ "" ∧ password ≠ "" ∧ username = password then
    .ok (create_access_token username none now)
  else
    .error .invalidCredentials

/-- Python `auth.split(" ", 1)[1]` on the header's character sequence:
everything after the first space (total on spaceless input, where the
guard of `require_auth` makes it unreachable). -/
def afterFirstSpace : List Char → List Char
  | [] => []
  | c :: cs => if c = ' ' then cs else afterFirstSpace cs

/-- `auth.require_auth`: `request.headers.get("Authorization")` is `hdr`;
a missing header, an empty one (`not auth`), or one not starting with
`"Bearer "` fails with `"Missing or invalid Authorization header"`;
otherwise the part after the first space is decoded (`decode` maps the
token substring to the abstract token it denotes) and handed to
`verify_token`. -/
def require_auth (decode : String → Token) (now : Nat)
    (hdr : Option String) : Except AuthError String :=
  match hdr with
  | none => .error .missingAuth
  | some auth =>
    if auth = "" ∨ ("Bearer ".data).isPrefixOf auth.data = false then
      .error .missingAuth
    else
      verify_token now (decode ⟨afterFirstSpace auth.data⟩)

/-! ## Concrete sample data (used by the witnesses) -/

/-- A sample stored row. -/
def sampleTodo : Todo :=
  { id := 1, title := "Buy milk", description := some "From store",
    is_completed := false, created_at := 5 }

/-- A sample one-row store. -/
def sampleStore : Store := [sampleTodo]

/-- A sample request providing only `is_completed := true`. -/
def completeOnly : TodoUpdate := { is_completed := some true }

/-- A sample interpretation of token substrings as abstract tokens. -/
def sampleDecode : String → Token :=
  fun _ => { key := SECRET_KEY, parsable := true, sub := some "alice", exp := 1 }

/-! ## Helper lemmas -/

theorem find?_setTodo (db : Store) (todo_id : Nat) (t t' : Todo)
    (hfind : get_todo_by_id db todo_id = some t) (hid : t'.id = t.id) :
    get_todo_by_id (setTodo db todo_id t') todo_id = some t' := by
  induction db with
  | nil => simp [get_todo_by_id] at hfind
  | cons x xs ih =>
    by_cases hx : x.id = todo_id
    · have ht : t = x := by
        simp [get_todo_by_id, List.find?_cons, hx] at hfind
        exact hfind.symm
      subst ht
      simp [setTodo, get_todo_by_id, List.find?_cons, hx, hid]
    · have hfind' : get_todo_by_id xs todo_id = some t := by
        simpa [get_todo_by_id, List.find?_cons, hx] using hfind
      have := ih hfind'
      simpa [setTodo, get_todo_by_id, List.find?_cons, hx] using this

theorem applyUpdate_id (u : TodoUpdate) (t : Todo) : (applyUpdate u t).id = t.id := by
  rcases u with ⟨ut, ud, uc⟩
  cases ut <;> cases ud <;> cases uc <;> simp [applyUpdate]

theorem applyUpdate_created_at (u : TodoUpdate) (t : Todo) :
    (applyUpdate u t).created_at = t.created_at := by
  rcases u with ⟨ut, ud, uc⟩
  cases ut <;> cases ud <;> cases uc <;> simp [applyUpdate]

theorem applyUpdate_title (u : TodoUpdate) (t : Todo) :
    (applyUpdate u t).title = u.title.getD t.title := by
  rcases u with ⟨ut, ud, uc⟩
  cases ut <;> cases ud <;> cases uc <;> simp [applyUpdate]

theorem applyUpdate_description (u : TodoUpdate) (t : Todo) :
    (applyUpdate u t).description =
      (match u.description with
        | some d => some d
        | none => t.description) := by
  rcases u with ⟨ut, ud, uc⟩
  cases ut <;> cases ud <;> cases uc <;> simp [applyUpdate]

theorem applyUpdate_is_completed (u : TodoUpdate) (t : Todo) :
    (applyUpdate u t).is_completed = u.is_completed.getD t.is_completed := by
  rcases u with ⟨ut, ud, uc⟩
  cases ut <;> cases ud <;> cases uc <;> simp [applyUpdate]

theorem find?_removeTodo (db : Store) (todo_id : Nat) (t : Todo)
    (huniq : idsUnique db) (hfind : get_todo_by_id db todo_id = some t) :
    get_todo_by_id (removeTodo db todo_id) todo_id = none := by
  induction db with
  | nil => simp [get_todo_by_id] at hfind
  | cons x xs ih =>
    have hx_notin : ∀ y ∈ xs, ¬ y.id = x.id := by
      have := huniq
      simp [idsUnique, List.nodup_cons] at this
      exact this.1
    by_cases hx : x.id = todo_id
    · have : get_todo_by_id xs todo_id = none := by
        rw [get_todo_by_id, List.find?_eq_none]
        intro y hy hbeq
        have hyid : y.id = todo_id := by simpa using hbeq
        exact hx_notin y hy (hyid.trans hx.symm)
      simpa [removeTodo, hx] using this
    · have huniq' : idsUnique xs := by
        have := huniq
        simp [idsUnique, List.nodup_cons] at this
        exact this.2
      have hfind' : get_todo_by_id xs todo_id = some t := by
        simpa [get_todo_by_id, List.find?_cons, hx] using hfind
      have := ih huniq' hfind'
      simpa [removeTodo, get_todo_by_id, List.find?_cons, hx] using this

/-! ## Claim theorems: Todo store -/

/-- C1: updating an existing todo with a request that provides only
`is_completed := true` changes only `is_completed`; the stored `title`
and `description` (and `id`, `created_at`) after the update equal their
values before it. -/
theorem update_only_is_completed_frame (db : Store) (todo_id : Nat) (t : Todo)
    (h : get_todo_by_id db todo_id = some t) :
    ∃ t', update_todo db todo_id { is_completed := some true } =
        (some t', setTodo db todo_id t') ∧
      get_todo_by_id (update_todo db todo_id { is_completed := some true }).2
        todo_id = some t' ∧
      t'.title = t.title ∧ t'.description = t.description ∧
      t'.id = t.id ∧ t'.created_at = t.created_at ∧
      t'.is_completed = true := by
  refine ⟨applyUpdate { is_completed := some true } t, ?_, ?_, ?_, ?_, ?_, ?_, ?_⟩
  · simp [update_todo, h]
  · rw [update_todo, h]
    exact find?_setTodo db todo_id t _ h (applyUpdate_id _ t)
  · simp [applyUpdate_title]
  · simp [applyUpdate_description]
  · exact applyUpdate_id _ t
  · exact applyUpdate_created_at _ t
  · simp [applyUpdate_is_completed]

/-- Witness for C1 on a concrete store. -/
theorem update_only_is_completed_frame_witness :
    ∃ t', update_todo sampleStore 1 completeOnly =
        (some t', setTodo sampleStore 1 t') ∧
      get_todo_by_id (update_todo sampleStore 1 completeOnly).2 1 = some t' ∧
      t'.title = sampleTodo.title ∧ t'.description = sampleTodo.description ∧
      t'.id = sampleTodo.id ∧ t'.created_at = sampleTodo.created_at ∧
      t'.is_completed = true :=
  update_only_is_completed_frame sampleStore 1 sampleTodo (by decide)

/-- C6: an update aimed at an id with no stored row returns `None`
(surfaced as HTTP 404 by the router) and leaves the store completely
unchanged, so a subsequent `list()` returns the same sequence. -/
theorem update_not_found_no_side_effects (db : Store) (todo_id : Nat)
    (u : TodoUpdate) (h : get_todo_by_id db todo_id = none) :
    update_todo db todo_id u = (none, db) ∧
    get_todos (update_todo db todo_id u).2 = get_todos db := by
  constructor
  · simp [update_todo, h]
  · simp [update_todo, h]

/-- Witness for C6 on a concrete store and absent id. -/
theorem update_not_found_no_side_effects_witness :
    update_todo sampleStore 2 { title := some "x" } = (none, sampleStore) ∧
    get_todos (update_todo sampleStore 2 { title := some "x" }).2 =
      get_todos sampleStore :=
  update_not_found_no_side_effects sampleStore 2 { title := some "x" }
    (by decide)

/-- C10: `TodoUpdate` parses an explicit JSON `null` for `description` to
`None`, exactly like an omitted field, and `update_todo` only assigns
`description` when the request value is non-`None`; hence an update whose
`description` is `null`/omitted leaves the stored description unchanged,
and no update can ever turn a non-`null` stored description back into
`null`. -/
theorem update_cannot_clear_description (db : Store) (todo_id : Nat)
    (t : Todo) (u : TodoUpdate) (h : get_todo_by_id db todo_id = some t) :
    (u.description = none →
      ∃ t', update_todo db todo_id u = (some t', setTodo db todo_id t') ∧
        get_todo_by_id (update_todo db todo_id u).2 todo_id = some t' ∧
        t'.description = t.description) ∧
    (∀ u' : TodoUpdate, t.description ≠ none →
      (applyUpdate u' t).description ≠ none) := by
  constructor
  · intro hnone
    refine ⟨applyUpdate u t, ?_, ?_, ?_⟩
    · simp [update_todo, h]
    · rw [update_todo, h]
      exact find?_setTodo db todo_id t _ h (applyUpdate_id u t)
    · simp [applyUpdate_description, hnone]
  · intro u' hdesc
    rw [applyUpdate_description]
    match hu : u'.description with
    | some d => simp
    | none => simpa using hdesc

/-- Witness for C10 on a concrete store. -/
theorem update_cannot_clear_description_witness :
    (completeOnly.description = none →
      ∃ t', update_todo sampleStore 1 completeOnly =
        (some t', setTodo sampleStore 1 t') ∧
        get_todo_by_id (update_todo sampleStore 1 completeOnly).2 1 = some t' ∧
        t'.description = sampleTodo.description) ∧
    (∀ u' : TodoUpdate, sampleTodo.description ≠ none →
      (applyUpdate u' sampleTodo).description ≠ none) :=
  update_cannot_clear_description sampleStore 1 sampleTodo completeOnly
    (by decide)

/-- C2 counterexample: the code performs no non-emptiness validation on
`title` (`schemas.TodoBase` declares plain `title: str`), so a create
request with the empty string stores a todo whose title is `""`, refuting
"create and update never store a todo whose title is the empty string". -/
theorem create_stores_empty_title :
    ((create_todo [] { title := "", description := none } 1 0).1.title = "") ∧
    ∃ t ∈ (create_todo [] { title := "", description := none } 1 0).2,
      t.title = "" := by
  refine ⟨rfl, (create_todo [] { title := "", description := none } 1 0).1,
    ?_, rfl⟩
  simp [create_todo]

/-- C2 amended: a stored title is never null (the field is a total
string), but no further validation happens — `create_todo` and
`update_todo` store the request's title verbatim, the empty string
included. -/
theorem stored_title_verbatim (db : Store) (req : TodoCreate)
    (new_id now todo_id : Nat) (t : Todo) (u : TodoUpdate) (s : String) :
    ((create_todo db req new_id now).1.title = req.title) ∧
    ((create_todo db req new_id now).2 =
      db ++ [(create_todo db req new_id now).1]) ∧
    (get_todo_by_id db todo_id = some t → u.title = some s →
      ∃ t', (update_todo db todo_id u).1 = some t' ∧ t'.title = s) := by
  refine ⟨rfl, rfl, fun h hs => ⟨applyUpdate u t, ?_, ?_⟩⟩
  · simp [update_todo, h]
  · simp [applyUpdate_title, hs]

/-- Witness for the amended C2: updating the sample todo's title to the
empty string stores the empty string. -/
theorem stored_title_verbatim_witness :
    (((create_todo sampleStore { title := "", description := none }
        2 6).1.title = TodoCreate.title { title := "", description := none }) ∧
    ((create_todo sampleStore { title := "", description := none } 2 6).2 =
      sampleStore ++ [(create_todo sampleStore
        { title := "", description := none } 2 6).1]) ∧
    (get_todo_by_id sampleStore 1 = some sampleTodo →
      TodoUpdate.title { title := some "" } = some "" →
      ∃ t', (update_todo sampleStore 1 { title := some "" }).1 = some t' ∧
        t'.title = "")) :=
  stored_title_verbatim sampleStore { title := "", description := none }
    2 6 1 sampleTodo { title := some "" } ""

/-- C7: `get_todos` returns exactly the stored rows (a permutation of the
table) ordered by `created_at` descending, and on the empty store it
returns the empty sequence. -/
theorem get_todos_sorted_perm (db : Store) :
    (get_todos db).Perm db ∧
    List.Sorted (fun a b : Todo => b.created_at ≤ a.created_at)
      (get_todos db) ∧
    get_todos ([] : Store) = [] := by
  refine ⟨List.mergeSort_perm db _, ?_, by simp [get_todos]⟩
  have h := @List.sorted_mergeSort Todo
    (fun a b : Todo => decide (b.created_at ≤ a.created_at))
    (fun a b c hab hbc => by
      simp only [decide_eq_true_eq] at *
      exact Nat.le_trans hbc hab)
    (fun a b => by
      simp only [Bool.or_eq_true, decide_eq_true_eq]
      exact (Nat.le_total b.created_at a.created_at).elim Or.inl Or.inr)
    db
  simpa [get_todos, List.Sorted] using h

/-- C8: on a store with unique primary keys, deleting a stored todo
returns its pre-deletion snapshot and a subsequent lookup of the same id
returns `None`; deleting an absent id returns `None` and leaves the
store untouched. -/
theorem delete_then_get_not_found (db : Store) (todo_id : Nat)
    (huniq : idsUnique db) :
    (∀ t, get_todo_by_id db todo_id = some t →
      delete_todo db todo_id = (some t, removeTodo db todo_id) ∧
      get_todo_by_id (delete_todo db todo_id).2 todo_id = none) ∧
    (get_todo_by_id db todo_id = none →
      delete_todo db todo_id = (none, db)) := by
  constructor
  · intro t h
    constructor
    · simp [delete_todo, h]
    · rw [delete_todo, h]
      exact find?_removeTodo db todo_id t huniq h
  · intro h
    simp [delete_todo, h]

/-- Witness for C8 on the concrete sample store. -/
theorem delete_then_get_not_found_witness :
    delete_todo sampleStore 1 = (some sampleTodo, removeTodo sampleStore 1) ∧
    get_todo_by_id (delete_todo sampleStore 1).2 1 = none :=
  (delete_then_get_not_found sampleStore 1
    (by simp [idsUnique, sampleStore])).1 sampleTodo (by decide)

/-! ## Claim theorems: token service -/

/-- C3: `login` succeeds, returning a token whose subject is the
username, exactly when username and password are equal and non-empty;
in every other case it fails with `InvalidCredentials` and issues no
token. -/
theorem login_succeeds_iff (u p : String) (now : Nat) :
    ((u = p ∧ u ≠ "" ∧ p ≠ "") →
      ∃ tok, login u p now = .ok tok ∧ tok.sub = some u) ∧
    (∀ tok, login u p now = .ok tok → (u = p ∧ u ≠ "" ∧ p ≠ "")) ∧
    (¬(u = p ∧ u ≠ "" ∧ p ≠ "") →
      login u p now = .error .invalidCredentials) := by
  refine ⟨?_, ?_, ?_⟩
  · rintro ⟨hup, hu, hp⟩
    exact ⟨create_access_token u none now, by simp [login, hu, hp, hup], rfl⟩
  · intro tok h
    by_cases hc : u ≠ "" ∧ p ≠ "" ∧ u = p
    · exact ⟨hc.2.2, hc.1, hc.2.1⟩
    · simp [login, hc] at h
  · intro hn
    have hc : ¬(u ≠ "" ∧ p ≠ "" ∧ u = p) := fun ⟨a, b, c⟩ => hn ⟨c, a, b⟩
    simp [login, hc]

/-- Witness for C3: `login("bob","bob")` succeeds with subject `"bob"`. -/
theorem login_succeeds_iff_witness :
    ∃ tok, login "bob" "bob" 0 = .ok tok ∧ tok.sub = some "bob" :=
  (login_succeeds_iff "bob" "bob" 0).1 ⟨rfl, by decide, by decide⟩

/-- C4: a token issued for a subject verifies back to exactly that
subject at any time strictly before its expiry instant
(issuance time plus the 60-minute TTL). -/
theorem issue_then_verify_roundtrip (s : String) (issued_at t : Nat)
    (h : t < issued_at + ACCESS_TOKEN_EXPIRE_MINUTES * 60) :
    verify_token t (create_access_token s none issued_at) = .ok s := by
  have hexp : ¬ (issued_at + ACCESS_TOKEN_EXPIRE_MINUTES * 60 ≤ t) :=
    Nat.not_le.mpr h
  simp [verify_token, jwtDecode, create_access_token, hexp]

/-- Witness for C4: `issue("alice")` at time 0, verified at time 0. -/
theorem issue_then_verify_roundtrip_witness :
    verify_token 0 (create_access_token "alice" none 0) = .ok "alice" :=
  issue_then_verify_roundtrip "alice" 0 0 (by decide)

/-- C5 counterexample: a parsable token signed with the wrong key whose
`exp` is already past fails with `MalformedToken`, not `ExpiredToken`:
the signature is checked before the `exp` claim, so "fails with
`ExpiredToken` whenever current time ≥ `exp`" does not hold as stated. -/
theorem verify_expired_invalid_signature_malformed :
    (0 : Nat) ≤ 10 ∧
    verify_token 10
      { key := "wrong", parsable := true, sub := some "alice", exp := 0 } =
      .error .malformedToken ∧
    ((.error .malformedToken : Except AuthError String) ≠
      .error .expiredToken) := by
  refine ⟨by decide, ?_, by simp⟩
  simp [verify_token, jwtDecode, SECRET_KEY]

/-- C5 amended: `verify_token` fails with `MalformedToken` when the
signature is invalid or the payload unparsable; when signature and
payload are good it fails with `ExpiredToken` when current time ≥ `exp`;
when additionally unexpired it fails with `MalformedToken` when `sub` is
missing; and it succeeds with subject `s` exactly when the signature is
valid, the payload parsable, the token unexpired and `sub = s`. -/
theorem verify_token_error_precedence (now : Nat) (t : Token) :
    (t.key ≠ SECRET_KEY ∨ t.parsable = false →
      verify_token now t = .error .malformedToken) ∧
    (t.key = SECRET_KEY → t.parsable = true → t.exp ≤ now →
      verify_token now t = .error .expiredToken) ∧
    (t.key = SECRET_KEY → t.parsable = true → now < t.exp → t.sub = none →
      verify_token now t = .error .malformedToken) ∧
    (∀ s, verify_token now t = .ok s ↔
      (t.key = SECRET_KEY ∧ t.parsable = true ∧ now < t.exp ∧
        t.sub = some s)) := by
  refine ⟨?_, ?_, ?_, ?_⟩
  · rintro (hk | hp)
    · simp [verify_token, jwtDecode, hk]
    · by_cases hk : t.key = SECRET_KEY
      · simp [verify_token, jwtDecode, hk, hp]
      · simp [verify_token, jwtDecode, hk]
  · intro hk hp hexp
    simp [verify_token, jwtDecode, hk, hp, hexp]
  · intro hk hp hlt hsub
    simp [verify_token, jwtDecode, hk, hp, Nat.not_le.mpr hlt, hsub]
  · intro s
    constructor
    · intro h
      by_cases hk : t.key = SECRET_KEY
      · by_cases hp : t.parsable = true
        · by_cases hexp : t.exp ≤ now
          · simp [verify_token, jwtDecode, hk, hp, hexp] at h
          · cases hs : t.sub with
            | none => simp [verify_token, jwtDecode, hk, hp, hexp, hs] at h
            | some s' =>
              have hss : s' = s := by
                simpa [verify_token, jwtDecode, hk, hp, hexp, hs] using h
              exact ⟨hk, hp, Nat.not_le.mp hexp, by rw [hss]⟩
        · have hp' : t.parsable = false := by simpa using hp
          simp [verify_token, jwtDecode, hk, hp'] at h
      · simp [verify_token, jwtDecode, hk] at h
    · rintro ⟨hk, hp, hlt, hs⟩
      simp [verify_token, jwtDecode, hk, hp, Nat.not_le.mpr hlt, hs]

/-- Witness for the amended C5 at a wrongly-signed concrete token. -/
theorem verify_token_error_precedence_witness :
    verify_token 0 { key := "x", parsable := true, sub := none, exp := 5 } =
      .error .malformedToken :=
  (verify_token_error_precedence 0
    { key := "x", parsable := true, sub := none, exp := 5 }).1
    (Or.inl (by decide))

theorem afterFirstSpace_cons (c : Char) (cs : List Char) :
    afterFirstSpace (c :: cs) = if c = ' ' then cs else afterFirstSpace cs :=
  rfl

theorem afterFirstSpace_bearerData (l : List Char) :
    afterFirstSpace ("Bearer ".data ++ l) = l := by
  show afterFirstSpace ('B' :: 'e' :: 'a' :: 'r' :: 'e' :: 'r' :: ' ' :: l) = l
  rw [afterFirstSpace_cons, if_neg (by decide), afterFirstSpace_cons,
    if_neg (by decide), afterFirstSpace_cons, if_neg (by decide),
    afterFirstSpace_cons, if_neg (by decide), afterFirstSpace_cons,
    if_neg (by decide), afterFirstSpace_cons, if_neg (by decide),
    afterFirstSpace_cons, if_pos rfl]

theorem string_data_append (a b : String) : (a ++ b).data = a.data ++ b.data := by
  cases a
  cases b
  rfl

theorem string_mk_data (s : String) : String.mk s.data = s := by
  cases s
  rfl

/-- C9: `require_auth` fails with `MissingAuth` when the Authorization
header is absent, empty, or does not start with the scheme `"Bearer "`;
on a header of the form `"Bearer " ++ tok` it returns exactly the result
of `verify_token` on the token part `tok` (under any interpretation
`decode` of token substrings as abstract tokens). -/
theorem require_auth_cases (decode : String → Token) (now : Nat) :
    (require_auth decode now none = .error .missingAuth) ∧
    (require_auth decode now (some "") = .error .missingAuth) ∧
    (∀ a : String, ("Bearer ".data).isPrefixOf a.data = false →
      require_auth decode now (some a) = .error .missingAuth) ∧
    (∀ tok : String, require_auth decode now (some ("Bearer " ++ tok)) =
      verify_token now (decode tok)) := by
  refine ⟨rfl, by simp [require_auth], ?_, ?_⟩
  · intro a h
    simp [require_auth, h]
  · intro tok
    have hne : ("Bearer " ++ tok) ≠ "" := by
      intro h
      have hdata := congrArg String.data h
      rw [string_data_append] at hdata
      simp at hdata
    have hpre : ("Bearer ".data).isPrefixOf ("Bearer " ++ tok).data = true := by
      rw [string_data_append]
      simp [ List.isPrefixOf_iff_prefix]
    have htok : (⟨afterFirstSpace ("Bearer " ++ tok).data⟩ : String) = tok := by
      rw [string_data_append, afterFirstSpace_bearerData]
    have hcond : ¬(("Bearer " ++ tok) = "" ∨
        ("Bearer ".data).isPrefixOf ("Bearer " ++ tok).data = false) := by
      rintro (h | h)
      · exact hne h
      · rw [hpre] at h
        cases h
    simp only [require_auth]
    rw [if_neg hcond, htok]

/-- Witness for C9: a header using the wrong scheme fails with
`MissingAuth`. -/
theorem require_auth_cases_witness :
    require_auth sampleDecode 0 (some "Token abc") = .error .missingAuth :=
  (require_auth_cases sampleDecode 0).2.2.1 "Token abc" (by decide)
